import Mathlib

/-!
Verification development for the `openai-mcp` chat client
(`src/client.ts`, `src/settings.ts`).

The TypeScript code is shallowly embedded: every network or process
interaction (the OpenAI chat-completions endpoint, the MCP tool session,
`JSON.parse`) is an oracle packed into an `Env` record, and the stateful
methods become pure functions that return the mutated transcript
(`this.messages`), a trace of observable events, and an `Except` outcome
(`Except.error` models a thrown JavaScript exception).
-/

namespace McpSpec

/-- a single requested call's `function` payload, as delivered by the chat
API (`tool_call.function` in `client.ts`). -/
structure ToolCallFunction where
  name : String
  arguments : String
deriving DecidableEq

/-- one tool call requested by the model (`tool_call` in `client.ts`). -/
structure ToolCall where
  id : String
  function : ToolCallFunction
deriving DecidableEq

/-- one transcript entry (`ChatCompletionMessageParam`).  `content` is an
`Option` because assistant messages that only carry tool calls have
`content = null`; absent fields are `none`. -/
structure Message where
  role : String
  content : Option String
  tool_calls : Option (List ToolCall) := none
  tool_call_id : Option String := none
deriving DecidableEq

/-- the message pushed by `this.messages.push({ role: "user", content: query })`
(client.ts line 58). -/
def userMessage (query : String) : Message :=
  { role := "user", content := some query }

/-- a tool descriptor returned by `session.list_tools()` (client.ts lines
60-68); the input schema is opaque to the client, so it is kept abstract
as a string. -/
structure Tool where
  name : String
  description : String
  inputSchema : String
deriving DecidableEq

/-- the `function` part of a tool schema sent to the chat API. -/
structure FunctionSchema where
  name : String
  description : String
  parameters : String
deriving DecidableEq

/-- one element of the `tools` array of a completion request (client.ts
lines 61-68). -/
structure ToolSchema where
  type : String
  function : FunctionSchema
deriving DecidableEq

/-- the observable payload of one `openai.chat.completions.create` call.
`tools = none` models the field being absent or `undefined` (the OpenAI
SDK omits `undefined` fields from the wire request); `tools = some []`
would model sending an explicit empty list. -/
structure CompletionRequest where
  model : String
  messages : List Message
  tools : Option (List ToolSchema)
  tool_choice : Option String
deriving DecidableEq

/-- one choice of a chat completion response. -/
structure Choice where
  finish_reason : String
  message : Message
deriving DecidableEq

/-- a chat completion response; the code reads `chatResponse.choices[0]`
unguarded. -/
structure ChatResponse where
  choices : List Choice
deriving DecidableEq

/-- one content item of an MCP tool result; only its `text` field is read
by the client. -/
structure ContentItem where
  text : Option String
deriving DecidableEq

/-- the result of `session.call_tool` (client.ts line 89). -/
structure ToolResult where
  content : List ContentItem
deriving DecidableEq

/-- a thrown JavaScript exception, as far as the client observes it:
`typeError` models reading a property of `undefined` (e.g.
`result.content[0].text` on an empty `content`, or `choices[0]` on an
empty `choices`); `parseError` a `JSON.parse` failure; `toolError` a
rejection raised by the MCP SDK's `call_tool`. -/
inductive JsError where
  | typeError
  | parseError (payload : String)
  | toolError (toolName : String) (message : String)
deriving DecidableEq

deriving instance DecidableEq for Except

/-- an observable event of one `processQuery` run: a push onto
`this.messages`, a request sent to the chat API, or a
`session.call_tool` invocation. -/
inductive Event where
  | appended (m : Message)
  | completionRequested (req : CompletionRequest)
  | toolCalled (name : String) (args : String)
deriving DecidableEq

/-- the external world as `processQuery` sees it: `list_tools` and
`call_tool` are the MCP session, `complete` is the chat endpoint
(deterministic per request, which is enough to replay any one turn), and
`parseJson` is `JSON.parse` returning an opaque structured payload. -/
structure Env where
  list_tools : Except JsError (List Tool)
  complete : CompletionRequest → ChatResponse
  parseJson : String → Except JsError String
  call_tool : String → String → Except JsError ToolResult

/-- the `available_tools` mapping of client.ts lines 61-68. -/
def availableTools (response_tools : List Tool) : List ToolSchema :=
  response_tools.map (fun tool =>
    { type := "function",
      function := { name := tool.name, description := tool.description,
                    parameters := tool.inputSchema } })

/-- the first `openai.chat.completions.create` request of a turn
(client.ts lines 70-75): `tools` and `tool_choice` are `undefined`
unless `available_tools.length > 0`. -/
def firstRequest (model : String) (messages : List Message)
    (response_tools : List Tool) : CompletionRequest :=
  let available_tools := availableTools response_tools
  { model := model, messages := messages,
    tools := if available_tools.length > 0 then some available_tools else none,
    tool_choice := if available_tools.length > 0 then some "auto" else none }

/-- the finalizing `openai.chat.completions.create` request after a tool
round (client.ts lines 101-104): no `tools` and no `tool_choice` field
at all. -/
def secondRequest (model : String) (messages : List Message) : CompletionRequest :=
  { model := model, messages := messages, tools := none, tool_choice := none }

/-- the `for (const tool_call of tool_calls)` loop of client.ts lines
83-96.  Results are accumulated into the local `tool_messages` array —
not pushed onto `this.messages` — and only the text of
`result.content[0]` is kept; an empty `content` makes
`result.content[0].text` throw a `TypeError`.  The second component is
the list of `call_tool` invocations performed, in order. -/
def runTools (env : Env) : List ToolCall → Except JsError (List Message) × List Event
  | [] => (Except.ok [], [])
  | tool_call :: rest =>
    let tool_name := tool_call.function.name
    match env.parseJson tool_call.function.arguments with
    | Except.error e => (Except.error e, [])
    | Except.ok tool_args =>
      match env.call_tool tool_name tool_args with
      | Except.error e => (Except.error e, [Event.toolCalled tool_name tool_args])
      | Except.ok result =>
        match result.content with
        | [] => (Except.error JsError.typeError, [Event.toolCalled tool_name tool_args])
        | item :: _ =>
          let toolMessage : Message :=
            { role := "tool", content := item.text, tool_call_id := some tool_call.id }
          let r := runTools env rest
          (r.1.map (fun tool_messages => toolMessage :: tool_messages),
           Event.toolCalled tool_name tool_args :: r.2)

/-- the outcome of one `processQuery` call: the transcript
(`this.messages`) after the call, the events it performed, and either
the returned answer text (`content` may be `null`, hence the `Option`)
or the exception it threw. -/
structure TurnResult where
  messages : List Message
  trace : List Event
  outcome : Except JsError (Option String)
deriving DecidableEq

/-- `MCPClient.processQuery` (client.ts lines 57-110).  Notable embedded
facts: the user message is pushed first; the assistant message carrying
the tool calls and the buffered tool messages are pushed only after the
whole tool loop has succeeded; the second completion's answer is
returned but never pushed onto `this.messages`. -/
def processQuery (env : Env) (model : String) (messages0 : List Message)
    (query : String) : TurnResult :=
  let messages := messages0 ++ [userMessage query]
  let trace := [Event.appended (userMessage query)]
  match env.list_tools with
  | Except.error e => { messages := messages, trace := trace, outcome := Except.error e }
  | Except.ok response_tools =>
    let req := firstRequest model messages response_tools
    let chatResponse := env.complete req
    let trace := trace ++ [Event.completionRequested req]
    match chatResponse.choices with
    | [] => { messages := messages, trace := trace, outcome := Except.error JsError.typeError }
    | content :: _ =>
      if content.finish_reason = "tool_calls" then
        match content.message.tool_calls with
        | none => { messages := messages, trace := trace, outcome := Except.error JsError.typeError }
        | some tool_calls =>
          let r := runTools env tool_calls
          match r.1 with
          | Except.error e =>
            { messages := messages, trace := trace ++ r.2, outcome := Except.error e }
          | Except.ok tool_messages =>
            let messages := messages ++ [content.message] ++ tool_messages
            let trace := trace ++ r.2 ++ [Event.appended content.message]
                           ++ tool_messages.map Event.appended
            let req2 := secondRequest model messages
            let second_response := env.complete req2
            let trace := trace ++ [Event.completionRequested req2]
            match second_response.choices with
            | [] => { messages := messages, trace := trace,
                      outcome := Except.error JsError.typeError }
            | c2 :: _ =>
              { messages := messages, trace := trace,
                outcome := Except.ok c2.message.content }
      else
        let messages := messages ++ [content.message]
        { messages := messages, trace := trace ++ [Event.appended content.message],
          outcome := Except.ok content.message.content }

/-- the JavaScript `String.prototype.trim()` call of client.ts line 120,
modelled over the character list (JavaScript trims ASCII and Unicode
whitespace; the inputs of interest here are covered by
`Char.isWhitespace`). -/
def jsTrim (s : String) : String :=
  String.mk (((s.data.dropWhile Char.isWhitespace).reverse.dropWhile
    Char.isWhitespace).reverse)

/-- the JavaScript `String.prototype.toLowerCase()` call of client.ts
line 121, modelled character-wise. -/
def jsToLowerCase (s : String) : String :=
  String.mk (s.data.map Char.toLower)

/-- an observable event of the read-eval-print loop: one orchestrator
invocation (`this.processQuery(query)`), the rendering of its answer, or
the `logger.error` call of the per-turn `catch` block. -/
inductive LoopEvent where
  | orchestratorInvoked (query : String)
  | answered (response : Option String)
  | errorLogged
deriving DecidableEq

/-- `MCPClient.chatLoop` (client.ts lines 112-136), driven by a finite
list of input lines.  Each line is trimmed on read; a line whose
lowercased form is `"quit"` breaks out of the loop at once; any other
line is handed to `processQuery`, whose failure is caught, logged and
survived (the loop continues with the transcript as the failed turn left
it). -/
def chatLoop (env : Env) (model : String) :
    List String → List Message → List Message × List LoopEvent
  | [], messages => (messages, [])
  | line :: rest, messages =>
    let query := jsTrim line
    if jsToLowerCase query = "quit" then (messages, [])
    else
      let r := processQuery env model messages query
      let events :=
        match r.outcome with
        | Except.ok response => [LoopEvent.orchestratorInvoked query, LoopEvent.answered response]
        | Except.error _ => [LoopEvent.orchestratorInvoked query, LoopEvent.errorLogged]
      let next := chatLoop env model rest r.messages
      (next.1, events ++ next.2)

/-- the observable effects of `MCPClient.cleanup` (client.ts lines
138-150): the transcript serialized into the timestamped history file,
whether `session.close()` was invoked (only when `this.session` is not
null), and `this.messages` afterwards — `cleanup` never touches the
transcript itself. -/
structure CleanupResult where
  transcriptWritten : List Message
  sessionClosed : Bool
  messages : List Message
deriving DecidableEq

/-- `MCPClient.cleanup` (client.ts lines 138-150). -/
def cleanup (sessionPresent : Bool) (messages : List Message) : CleanupResult :=
  { transcriptWritten := messages, sessionClosed := sessionPresent, messages := messages }

/-- an observable event of `main` (client.ts lines 153-164). -/
inductive MainEvent where
  | connected
  | loopFinished
  | transcriptWritten
  | sessionClosed
  | errorLogged (message : String)
deriving DecidableEq, BEq

/-- `main` (client.ts lines 153-164): `connectToServer`, `chatLoop` and
`cleanup` run in sequence inside one `try`; the `catch` block only logs.
`connectResult` abstracts whether `connectToServer()` succeeds and
`loopResult` whether `chatLoop()` returns normally or throws.  `cleanup`
(write the transcript, then close the session) is reached only when both
complete normally; on any thrown error the `catch` logs it and `main`
returns without running `cleanup`.  No signal handlers are installed
anywhere in the program. -/
def mainRun (connectResult : Except String Unit) (loopResult : Except String Unit) :
    List MainEvent :=
  match connectResult with
  | Except.error e => [MainEvent.errorLogged e]
  | Except.ok _ =>
    match loopResult with
    | Except.error e => [MainEvent.connected, MainEvent.errorLogged e]
    | Except.ok _ =>
      [MainEvent.connected, MainEvent.loopFinished,
       MainEvent.transcriptWritten, MainEvent.sessionClosed]

/-- the `args` field of a server entry of `server-config.json`:
absent, present but not a JSON array, or an array of strings. -/
inductive JsonArgs where
  | absent
  | notArray
  | array (xs : List String)
deriving DecidableEq

/-- one server entry as read from `server-config.json`; `command = none`
models the `command` key being absent. -/
structure RawServer where
  command : Option String
  args : JsonArgs
deriving DecidableEq

/-- the outcome of reading and parsing `server-config.json`: `enoent`
models `fs.readFileSync` throwing with `code === "ENOENT"`, `invalidJson`
a `SyntaxError` from `JSON.parse`, and `parsed` a successful parse whose
`mcpServers` key is either falsy/absent (`none`) or an object given as
its ordered list of entries. -/
inductive ConfigFile where
  | enoent
  | invalidJson
  | parsed (mcpServers : Option (List (String × RawServer)))
deriving DecidableEq

/-- the validated server configuration (`settings.serverConfig`). -/
structure ServerConfig where
  name : String
  command : String
  args : List String
deriving DecidableEq

/-- the settings object produced by `getSettings` (settings.ts). -/
structure Settings where
  model : String
  apiKey : String
  baseUrl : String
  serverConfig : Option ServerConfig
deriving DecidableEq

/-- `getSettings` (settings.ts lines 23-90), with the environment value
`process.env.DEEPSEEK_API_KEY` and the config-file read outcome as
inputs; `Except.error` models the function throwing.  The JavaScript
falsiness check `!settings.apiKey` rejects both an unset variable
(`none`) and the empty string.  Only the first entry of `mcpServers` is
used; no default configuration is ever substituted. -/
def getSettings (apiKeyEnv : Option String) (configFile : ConfigFile) :
    Except String Settings :=
  match apiKeyEnv with
  | none =>
    Except.error "DeepSeek API key is required. Please set DEEPSEEK_API_KEY in your .env file."
  | some apiKey =>
    if apiKey = "" then
      Except.error "DeepSeek API key is required. Please set DEEPSEEK_API_KEY in your .env file."
    else
      match configFile with
      | ConfigFile.enoent => Except.error "MCP Config file not found"
      | ConfigFile.invalidJson => Except.error "Invalid MCP Config file"
      | ConfigFile.parsed none =>
        Except.error "Config must contain at least one server in mcpServers"
      | ConfigFile.parsed (some []) =>
        Except.error "Config must contain at least one server in mcpServers"
      | ConfigFile.parsed (some ((name, server) :: _)) =>
        let missingFields :=
          (if server.command = none then ["command"] else []) ++
          (if server.args = JsonArgs.absent then ["args"] else [])
        if missingFields ≠ [] then
          Except.error ("Server " ++ name ++ " missing required fields: "
            ++ String.intercalate ", " missingFields)
        else
          match server.args with
          | JsonArgs.array (arg :: moreArgs) =>
            match server.command with
            | some command =>
              Except.ok { model := "deepseek-chat", apiKey := apiKey,
                          baseUrl := "https://api.deepseek.com",
                          serverConfig := some { name := name, command := command,
                                                 args := arg :: moreArgs } }
            | none =>
              Except.error ("Server " ++ name ++ " missing required fields: command")
          | _ =>
            Except.error ("Server " ++ name ++ " must have a non-empty args list")

/-- whether `getSettings` threw. -/
def isError : Except String Settings → Bool
  | Except.error _ => true
  | Except.ok _ => false

/-- whether an event is a `session.call_tool` invocation. -/
def isToolCalled : Event → Bool
  | Event.toolCalled _ _ => true
  | _ => false

/-- whether an event appends a `role = "tool"` message to the transcript. -/
def isToolMessageAppend : Event → Bool
  | Event.appended m => m.role == "tool"
  | _ => false

/-- the property claimed by the spec for multi-call rounds: after every
tool invocation that is followed by another one, a tool-result message
is appended to the transcript before that next invocation runs. -/
def resultAppendedBeforeNextCall : List Event → Bool
  | [] => true
  | Event.toolCalled _ _ :: rest =>
    (if rest.any isToolCalled then
      (rest.takeWhile (fun e => !(isToolCalled e))).any isToolMessageAppend
     else true) && resultAppendedBeforeNextCall rest
  | _ :: rest => resultAppendedBeforeNextCall rest

/-- the completion requests performed during a turn, in order. -/
def completionRequests (trace : List Event) : List CompletionRequest :=
  trace.filterMap (fun e =>
    match e with
    | Event.completionRequested req => some req
    | _ => none)

/-! Helper lemmas about the tool loop. -/

theorem runTools_fst_ok_length (env : Env) :
    ∀ (tool_calls : List ToolCall) (tool_messages : List Message),
      (runTools env tool_calls).1 = Except.ok tool_messages →
      tool_messages.length = tool_calls.length := by
  intro tool_calls
  induction tool_calls with
  | nil =>
    intro tms h
    simp [runTools] at h
    simp [← h]
  | cons tc rest ih =>
    intro tms h
    simp only [runTools] at h
    split at h
    · simp at h
    · split at h
      · simp at h
      · split at h
        · simp at h
        · rename_i item more hcont
          simp only [] at h
          cases hr : (runTools env rest).1 with
          | error e => rw [hr] at h; simp [Except.map] at h
          | ok tms2 =>
            rw [hr] at h
            simp [Except.map] at h
            rw [← h]
            simp [ih tms2 hr]

theorem runTools_fst_ok_get (env : Env) :
    ∀ (tool_calls : List ToolCall) (tool_messages : List Message),
      (runTools env tool_calls).1 = Except.ok tool_messages →
      ∀ i : Nat,
        (tool_messages[i]?).map (fun m => (m.role, m.tool_call_id)) =
        (tool_calls[i]?).map (fun tc => ("tool", some tc.id)) := by
  intro tool_calls
  induction tool_calls with
  | nil =>
    intro tms h i
    simp [runTools] at h
    subst h
    simp
  | cons tc rest ih =>
    intro tms h i
    simp only [runTools] at h
    split at h
    · simp at h
    · split at h
      · simp at h
      · split at h
        · simp at h
        · rename_i item more hcont
          simp only [] at h
          cases hr : (runTools env rest).1 with
          | error e => rw [hr] at h; simp [Except.map] at h
          | ok tms2 =>
            rw [hr] at h
            simp [Except.map] at h
            rw [← h]
            cases i with
            | zero => simp
            | succ j => simpa using ih tms2 hr j

theorem runTools_snd_toolCalled (env : Env) :
    ∀ (tool_calls : List ToolCall), ∀ e ∈ (runTools env tool_calls).2, isToolCalled e = true := by
  intro tool_calls
  induction tool_calls with
  | nil => intro e he; simp [runTools] at he
  | cons tc rest ih =>
    intro e he
    simp only [runTools] at he
    split at he
    · simp at he
    · split at he
      · simp at he
        simp [he, isToolCalled]
      · split at he
        · simp at he
          simp [he, isToolCalled]
        · simp only [] at he
          simp at he
          rcases he with he | he
          · simp [he, isToolCalled]
          · exact ih e he

/-! Branch equations for `processQuery`. -/

theorem processQuery_no_tool_calls_eq (env : Env) (model : String)
    (messages0 : List Message) (query : String) (response_tools : List Tool)
    (c : Choice) (cs : List Choice)
    (hlt : env.list_tools = Except.ok response_tools)
    (h1 : env.complete (firstRequest model (messages0 ++ [userMessage query]) response_tools)
            = { choices := c :: cs })
    (hfr : c.finish_reason ≠ "tool_calls") :
    processQuery env model messages0 query =
      { messages := messages0 ++ [userMessage query] ++ [c.message],
        trace := [Event.appended (userMessage query),
                  Event.completionRequested
                    (firstRequest model (messages0 ++ [userMessage query]) response_tools),
                  Event.appended c.message],
        outcome := Except.ok c.message.content } := by
  simp only [processQuery, hlt, h1, hfr, if_false]
  rfl

theorem processQuery_tool_round_eq (env : Env) (model : String)
    (messages0 : List Message) (query : String) (response_tools : List Tool)
    (c : Choice) (cs : List Choice) (tool_calls : List ToolCall)
    (tool_messages : List Message) (c2 : Choice) (cs2 : List Choice)
    (hlt : env.list_tools = Except.ok response_tools)
    (h1 : env.complete (firstRequest model (messages0 ++ [userMessage query]) response_tools)
            = { choices := c :: cs })
    (hfr : c.finish_reason = "tool_calls")
    (htc : c.message.tool_calls = some tool_calls)
    (hrt : (runTools env tool_calls).1 = Except.ok tool_messages)
    (h2 : env.complete (secondRequest model
            (messages0 ++ [userMessage query] ++ [c.message] ++ tool_messages))
            = { choices := c2 :: cs2 }) :
    processQuery env model messages0 query =
      { messages := messages0 ++ [userMessage query] ++ [c.message] ++ tool_messages,
        trace := [Event.appended (userMessage query)]
                 ++ [Event.completionRequested
                      (firstRequest model (messages0 ++ [userMessage query]) response_tools)]
                 ++ (runTools env tool_calls).2
                 ++ [Event.appended c.message]
                 ++ tool_messages.map Event.appended
                 ++ [Event.completionRequested (secondRequest model
                      (messages0 ++ [userMessage query] ++ [c.message] ++ tool_messages))],
        outcome := Except.ok c2.message.content } := by
  simp only [processQuery, hlt, h1, hfr, htc, hrt, h2, if_pos]

theorem processQuery_tool_failure_eq (env : Env) (model : String)
    (messages0 : List Message) (query : String) (response_tools : List Tool)
    (c : Choice) (cs : List Choice) (tool_calls : List ToolCall) (e : JsError)
    (hlt : env.list_tools = Except.ok response_tools)
    (h1 : env.complete (firstRequest model (messages0 ++ [userMessage query]) response_tools)
            = { choices := c :: cs })
    (hfr : c.finish_reason = "tool_calls")
    (htc : c.message.tool_calls = some tool_calls)
    (hrt : (runTools env tool_calls).1 = Except.error e) :
    processQuery env model messages0 query =
      { messages := messages0 ++ [userMessage query],
        trace := [Event.appended (userMessage query)]
                 ++ [Event.completionRequested
                      (firstRequest model (messages0 ++ [userMessage query]) response_tools)]
                 ++ (runTools env tool_calls).2,
        outcome := Except.error e } := by
  simp only [processQuery, hlt, h1, hfr, htc, hrt, if_pos]

/-! Append-only facts. -/

theorem processQuery_messages_drop (env : Env) (model : String)
    (messages0 : List Message) (query : String) :
    (processQuery env model messages0 query).messages =
      messages0 ++ (processQuery env model messages0 query).messages.drop messages0.length := by
  unfold processQuery
  dsimp only
  repeat' split
  all_goals simp

theorem processQuery_messages_extends (env : Env) (model : String)
    (messages0 : List Message) (query : String) :
    ∃ tail, (processQuery env model messages0 query).messages = messages0 ++ tail :=
  ⟨(processQuery env model messages0 query).messages.drop messages0.length,
   processQuery_messages_drop env model messages0 query⟩

theorem chatLoop_messages_extends (env : Env) (model : String) :
    ∀ (inputs : List String) (messages0 : List Message),
      ∃ tail, (chatLoop env model inputs messages0).1 = messages0 ++ tail := by
  intro inputs
  induction inputs with
  | nil => intro messages0; exact ⟨[], by simp [chatLoop]⟩
  | cons line rest ih =>
    intro messages0
    by_cases hq : jsToLowerCase (jsTrim line) = "quit"
    · exact ⟨[], by simp [chatLoop, hq]⟩
    · obtain ⟨t1, ht1⟩ := processQuery_messages_extends env model messages0 (jsTrim line)
      obtain ⟨t2, ht2⟩ := ih (processQuery env model messages0 (jsTrim line)).messages
      refine ⟨t1 ++ t2, ?_⟩
      simp only [chatLoop, hq, if_false]
      rw [ht2, ht1, List.append_assoc]

/-! Concrete environments used to evaluate the code on explicit inputs. -/

/-- a sample tool exposed by the MCP server. -/
def sampleTool : Tool :=
  { name := "list_dir", description := "list directory contents", inputSchema := "schema" }

/-- the tool call `c1` of the spec's scenarios. -/
def callC1 : ToolCall :=
  { id := "c1", function := { name := "list_dir", arguments := "path-tmp" } }

/-- a second requested tool call. -/
def callC2 : ToolCall :=
  { id := "c2", function := { name := "read_file", arguments := "file-a" } }

/-- an assistant message that only carries tool-call requests
(`content = null`). -/
def assistantToolCalls (calls : List ToolCall) : Message :=
  { role := "assistant", content := none, tool_calls := some calls }

/-- the final assistant answer of the tool-round scenario. -/
def finalAnswer : Message :=
  { role := "assistant", content := some "The files are a.txt and b.txt." }

/-- the tool message recorded for `callC1` in the one-call scenario. -/
def toolMsgC1 : Message :=
  { role := "tool", content := some "a.txt, b.txt", tool_call_id := some "c1" }

/-- a world in which the model requests one tool call, the call succeeds,
and the finalizing completion answers with `finalAnswer`. -/
def envOneCall : Env :=
  { list_tools := Except.ok [sampleTool],
    complete := fun req =>
      if req.tools = none then
        { choices := [{ finish_reason := "stop", message := finalAnswer }] }
      else
        { choices := [{ finish_reason := "tool_calls",
                        message := assistantToolCalls [callC1] }] },
    parseJson := fun s => Except.ok s,
    call_tool := fun _ _ => Except.ok { content := [{ text := some "a.txt, b.txt" }] } }

/-- a world in which the model requests two tool calls in one round and
both succeed. -/
def envTwoCalls : Env :=
  { list_tools := Except.ok [sampleTool],
    complete := fun req =>
      if req.tools = none then
        { choices := [{ finish_reason := "stop", message := finalAnswer }] }
      else
        { choices := [{ finish_reason := "tool_calls",
                        message := assistantToolCalls [callC1, callC2] }] },
    parseJson := fun s => Except.ok s,
    call_tool := fun name _ => Except.ok { content := [{ text := some ("result of " ++ name) }] } }

/-- a world in which the single requested tool call fails at the
provider. -/
def envFailingCall : Env :=
  { list_tools := Except.ok [sampleTool],
    complete := fun _ =>
      { choices := [{ finish_reason := "tool_calls",
                      message := assistantToolCalls [callC1] }] },
    parseJson := fun s => Except.ok s,
    call_tool := fun _ _ => Except.error (JsError.toolError "list_dir" "provider rejected the call") }

/-- a world in which the model answers in plain text with no tool calls. -/
def envPlain : Env :=
  { list_tools := Except.ok [sampleTool],
    complete := fun _ =>
      { choices := [{ finish_reason := "stop",
                      message := { role := "assistant", content := some "4" } }] },
    parseJson := fun s => Except.ok s,
    call_tool := fun _ _ => Except.ok { content := [{ text := some "unused" }] } }

/-- a world whose tool result carries two content items. -/
def envTwoItems : Env :=
  { list_tools := Except.ok [sampleTool],
    complete := fun _ =>
      { choices := [{ finish_reason := "tool_calls",
                      message := assistantToolCalls [callC1] }] },
    parseJson := fun s => Except.ok s,
    call_tool := fun _ _ =>
      Except.ok { content := [{ text := some "first item" }, { text := some "second item" }] } }

/-- a world in which the MCP server exposes no tools at all. -/
def envNoTools : Env :=
  { list_tools := Except.ok [],
    complete := fun _ =>
      { choices := [{ finish_reason := "stop",
                      message := { role := "assistant", content := some "4" } }] },
    parseJson := fun s => Except.ok s,
    call_tool := fun _ _ => Except.ok { content := [{ text := some "unused" }] } }

/-- a world whose tool result carries an empty content sequence. -/
def envEmptyContent : Env :=
  { list_tools := Except.ok [sampleTool],
    complete := fun _ =>
      { choices := [{ finish_reason := "tool_calls",
                      message := assistantToolCalls [callC1] }] },
    parseJson := fun s => Except.ok s,
    call_tool := fun _ _ => Except.ok { content := [] } }

/-! Claim theorems. -/

/-- C1 (counterexample): in a turn with `n = 1` requested tool call that
succeeds end to end, the transcript gains only 3 messages (user,
assistant-with-toolCalls, tool) — not `n + 3 = 4` — because the final
answer produced by the second completion is returned but never pushed
onto `this.messages`; the last transcript entry is the tool message, not
a final assistant message. -/
theorem toolRound_transcript_counterexample :
    (processQuery envOneCall "deepseek-chat" [] "List files in /tmp").messages =
      [userMessage "List files in /tmp", assistantToolCalls [callC1], toolMsgC1] ∧
    (processQuery envOneCall "deepseek-chat" [] "List files in /tmp").messages.length ≠ 1 + 3 ∧
    (processQuery envOneCall "deepseek-chat" [] "List files in /tmp").outcome =
      Except.ok (some "The files are a.txt and b.txt.") := by
  decide

/-- C1 (amended): in every turn whose first completion requests `n` tool
calls and in which every call succeeds, the transcript gains exactly
`n + 2` messages — the user message, the assistant message carrying the
tool-call requests, and the `n` tool messages — while the final answer
of the second completion is returned to the caller without being
appended. -/
theorem toolRound_transcript_gain (env : Env) (model : String)
    (messages0 : List Message) (query : String) (response_tools : List Tool)
    (c : Choice) (cs : List Choice) (tool_calls : List ToolCall)
    (tool_messages : List Message) (c2 : Choice) (cs2 : List Choice)
    (hlt : env.list_tools = Except.ok response_tools)
    (h1 : env.complete (firstRequest model (messages0 ++ [userMessage query]) response_tools)
            = { choices := c :: cs })
    (hfr : c.finish_reason = "tool_calls")
    (htc : c.message.tool_calls = some tool_calls)
    (hrt : (runTools env tool_calls).1 = Except.ok tool_messages)
    (h2 : env.complete (secondRequest model
            (messages0 ++ [userMessage query] ++ [c.message] ++ tool_messages))
            = { choices := c2 :: cs2 }) :
    (processQuery env model messages0 query).messages =
      messages0 ++ [userMessage query] ++ [c.message] ++ tool_messages ∧
    tool_messages.length = tool_calls.length ∧
    (processQuery env model messages0 query).messages.length =
      messages0.length + (2 + tool_calls.length) ∧
    (processQuery env model messages0 query).outcome = Except.ok c2.message.content := by
  have hlen := runTools_fst_ok_length env tool_calls tool_messages hrt
  rw [processQuery_tool_round_eq env model messages0 query response_tools c cs tool_calls
        tool_messages c2 cs2 hlt h1 hfr htc hrt h2]
  refine ⟨rfl, hlen, ?_, rfl⟩
  simp [hlen]
  omega

/-- C1 (witness): the amended theorem applied to the concrete one-call
world. -/
theorem toolRound_transcript_gain_witness :
    (processQuery envOneCall "deepseek-chat" [] "q").messages =
      [] ++ [userMessage "q"] ++ [assistantToolCalls [callC1]] ++ [toolMsgC1] ∧
    ([toolMsgC1] : List Message).length = [callC1].length ∧
    (processQuery envOneCall "deepseek-chat" [] "q").messages.length =
      ([] : List Message).length + (2 + [callC1].length) ∧
    (processQuery envOneCall "deepseek-chat" [] "q").outcome = Except.ok finalAnswer.content :=
  toolRound_transcript_gain envOneCall "deepseek-chat" [] "q" [sampleTool]
    { finish_reason := "tool_calls", message := assistantToolCalls [callC1] } []
    [callC1] [toolMsgC1] { finish_reason := "stop", message := finalAnswer } []
    (by decide) (by decide) (by decide) (by decide) (by decide) (by decide)

/-- C2 (counterexample): when the single requested tool call fails, the
transcript retains only ONE message — the user message — not the two the
claim states: the assistant message carrying the tool-call requests has
not been pushed yet (it is pushed only after the whole tool loop), and
the provider's error propagates out of `processQuery`. -/
theorem toolFailure_transcript_counterexample :
    (processQuery envFailingCall "deepseek-chat" [] "q").messages = [userMessage "q"] ∧
    (processQuery envFailingCall "deepseek-chat" [] "q").messages.length ≠ 2 ∧
    (processQuery envFailingCall "deepseek-chat" [] "q").outcome =
      Except.error (JsError.toolError "list_dir" "provider rejected the call") := by
  decide

/-- C2 (amended): when any tool invocation of the round fails, the error
propagates out of `processQuery` unswallowed, no fabricated tool-result
message is appended, and the transcript holds exactly the one message
appended before the failure — the user message; the assistant message
carrying the tool-call requests is NOT recorded, since the code pushes
it only after every call has succeeded. -/
theorem toolFailure_transcript (env : Env) (model : String)
    (messages0 : List Message) (query : String) (response_tools : List Tool)
    (c : Choice) (cs : List Choice) (tool_calls : List ToolCall) (e : JsError)
    (hlt : env.list_tools = Except.ok response_tools)
    (h1 : env.complete (firstRequest model (messages0 ++ [userMessage query]) response_tools)
            = { choices := c :: cs })
    (hfr : c.finish_reason = "tool_calls")
    (htc : c.message.tool_calls = some tool_calls)
    (hrt : (runTools env tool_calls).1 = Except.error e) :
    (processQuery env model messages0 query).messages = messages0 ++ [userMessage query] ∧
    (processQuery env model messages0 query).outcome = Except.error e ∧
    ∀ m, Event.appended m ∈ (processQuery env model messages0 query).trace →
      m = userMessage query := by
  rw [processQuery_tool_failure_eq env model messages0 query response_tools c cs tool_calls e
        hlt h1 hfr htc hrt]
  refine ⟨rfl, rfl, ?_⟩
  intro m hm
  simp at hm
  rcases hm with hm | hm
  · exact hm
  · have := runTools_snd_toolCalled env tool_calls _ hm
    simp [isToolCalled] at this

/-- C2 (witness): the amended theorem applied to the concrete failing
world. -/
theorem toolFailure_transcript_witness :
    (processQuery envFailingCall "deepseek-chat" [] "q").messages = [] ++ [userMessage "q"] ∧
    (processQuery envFailingCall "deepseek-chat" [] "q").outcome =
      Except.error (JsError.toolError "list_dir" "provider rejected the call") ∧
    ∀ m, Event.appended m ∈ (processQuery envFailingCall "deepseek-chat" [] "q").trace →
      m = userMessage "q" :=
  toolFailure_transcript envFailingCall "deepseek-chat" [] "q" [sampleTool]
    { finish_reason := "tool_calls", message := assistantToolCalls [callC1] } []
    [callC1] (JsError.toolError "list_dir" "provider rejected the call")
    (by decide) (by decide) (by decide) (by decide) (by decide)

/-- C3 (counterexample): on the error exit path — `connectToServer` or
`chatLoop` throwing — `main`'s `catch` block only logs: the session is
not closed and the transcript is not written, contradicting the claim
that cleanup runs on every way the process can end. -/
theorem cleanup_error_path_counterexample :
    MainEvent.sessionClosed ∉ mainRun (Except.ok ()) (Except.error "boom") ∧
    MainEvent.transcriptWritten ∉ mainRun (Except.ok ()) (Except.error "boom") ∧
    MainEvent.sessionClosed ∉ mainRun (Except.error "spawn failed") (Except.ok ()) := by
  refine ⟨?_, ?_, ?_⟩ <;> simp [mainRun]

/-- C3 (amended): the session close and the transcript flush run exactly
on the normal exit path — when both `connectToServer` and `chatLoop`
complete without throwing; on any error exit the failure is only logged
and neither part of cleanup runs (and the program installs no signal
handlers at all). -/
theorem cleanup_only_on_normal_exit (connectResult loopResult : Except String Unit) :
    (MainEvent.sessionClosed ∈ mainRun connectResult loopResult ↔
       connectResult = Except.ok () ∧ loopResult = Except.ok ()) ∧
    (MainEvent.transcriptWritten ∈ mainRun connectResult loopResult ↔
       connectResult = Except.ok () ∧ loopResult = Except.ok ()) := by
  cases connectResult with
  | error e => simp [mainRun]
  | ok u =>
    cases u
    cases loopResult with
    | error e => simp [mainRun]
    | ok u2 => cases u2; simp [mainRun]

/-- C3 (witness): the amended theorem applied on the normal exit path. -/
theorem cleanup_only_on_normal_exit_witness :
    MainEvent.sessionClosed ∈ mainRun (Except.ok ()) (Except.ok ()) :=
  (cleanup_only_on_normal_exit (Except.ok ()) (Except.ok ())).1.mpr ⟨rfl, rfl⟩

/-- C4 (counterexample): in a round with two successful tool calls, no
tool-result message is appended to the transcript between the two
`call_tool` invocations — the two `toolCalled` events are adjacent in
the trace and all transcript appends of tool results come later — so
the claim that each result is appended before the next call runs is
false; the trace does contain exactly two tool invocations. -/
theorem sequentialAppend_counterexample :
    resultAppendedBeforeNextCall
      (processQuery envTwoCalls "deepseek-chat" [] "q").trace = false ∧
    ((processQuery envTwoCalls "deepseek-chat" [] "q").trace.filter isToolCalled).length = 2 := by
  decide

/-- C4 (amended): tool calls of one round run strictly sequentially in
request order (the trace interleaves nothing between them), but their
result messages are buffered and appended to the transcript together,
after the whole round, still in request order: the i-th buffered tool
message carries the i-th requested call's id. -/
theorem toolRound_buffered_in_order (env : Env) (model : String)
    (messages0 : List Message) (query : String) (response_tools : List Tool)
    (c : Choice) (cs : List Choice) (tool_calls : List ToolCall)
    (tool_messages : List Message) (c2 : Choice) (cs2 : List Choice)
    (hlt : env.list_tools = Except.ok response_tools)
    (h1 : env.complete (firstRequest model (messages0 ++ [userMessage query]) response_tools)
            = { choices := c :: cs })
    (hfr : c.finish_reason = "tool_calls")
    (htc : c.message.tool_calls = some tool_calls)
    (hrt : (runTools env tool_calls).1 = Except.ok tool_messages)
    (h2 : env.complete (secondRequest model
            (messages0 ++ [userMessage query] ++ [c.message] ++ tool_messages))
            = { choices := c2 :: cs2 }) :
    (processQuery env model messages0 query).trace =
      [Event.appended (userMessage query)]
      ++ [Event.completionRequested
           (firstRequest model (messages0 ++ [userMessage query]) response_tools)]
      ++ (runTools env tool_calls).2
      ++ [Event.appended c.message]
      ++ tool_messages.map Event.appended
      ++ [Event.completionRequested (secondRequest model
           (messages0 ++ [userMessage query] ++ [c.message] ++ tool_messages))] ∧
    (∀ e ∈ (runTools env tool_calls).2, isToolCalled e = true) ∧
    (∀ i : Nat,
       (tool_messages[i]?).map (fun m => (m.role, m.tool_call_id)) =
       (tool_calls[i]?).map (fun tc => ("tool", some tc.id))) := by
  refine ⟨?_, runTools_snd_toolCalled env tool_calls,
          runTools_fst_ok_get env tool_calls tool_messages hrt⟩
  rw [processQuery_tool_round_eq env model messages0 query response_tools c cs tool_calls
        tool_messages c2 cs2 hlt h1 hfr htc hrt h2]

/-- C4 (witness): the amended theorem applied to the concrete one-call
world. -/
theorem toolRound_buffered_in_order_witness :
    (processQuery envOneCall "deepseek-chat" [] "q").trace =
      [Event.appended (userMessage "q")]
      ++ [Event.completionRequested (firstRequest "deepseek-chat" ([] ++ [userMessage "q"]) [sampleTool])]
      ++ (runTools envOneCall [callC1]).2
      ++ [Event.appended (assistantToolCalls [callC1])]
      ++ ([toolMsgC1] : List Message).map Event.appended
      ++ [Event.completionRequested (secondRequest "deepseek-chat"
           ([] ++ [userMessage "q"] ++ [assistantToolCalls [callC1]] ++ [toolMsgC1]))] ∧
    (∀ e ∈ (runTools envOneCall [callC1]).2, isToolCalled e = true) ∧
    (∀ i : Nat,
       (([toolMsgC1] : List Message)[i]?).map (fun m => (m.role, m.tool_call_id)) =
       (([callC1] : List ToolCall)[i]?).map (fun tc => ("tool", some tc.id))) :=
  toolRound_buffered_in_order envOneCall "deepseek-chat" [] "q" [sampleTool]
    { finish_reason := "tool_calls", message := assistantToolCalls [callC1] } []
    [callC1] [toolMsgC1] { finish_reason := "stop", message := finalAnswer } []
    (by decide) (by decide) (by decide) (by decide) (by decide) (by decide)

/-- C5: in every turn whose first completion answers without tool calls,
the transcript gains exactly the user message followed by the assistant
message, and `processQuery` returns exactly that assistant message's
content. -/
theorem noToolCalls_transcript (env : Env) (model : String)
    (messages0 : List Message) (query : String) (response_tools : List Tool)
    (c : Choice) (cs : List Choice)
    (hlt : env.list_tools = Except.ok response_tools)
    (h1 : env.complete (firstRequest model (messages0 ++ [userMessage query]) response_tools)
            = { choices := c :: cs })
    (hfr : c.finish_reason ≠ "tool_calls") :
    (processQuery env model messages0 query).messages =
      messages0 ++ [userMessage query] ++ [c.message] ∧
    (processQuery env model messages0 query).outcome = Except.ok c.message.content := by
  rw [processQuery_no_tool_calls_eq env model messages0 query response_tools c cs hlt h1 hfr]
  exact ⟨rfl, rfl⟩

/-- C5 (witness): the theorem applied to the concrete plain-text world
(`"What is 2+2?"` answered by `"4"`). -/
theorem noToolCalls_transcript_witness :
    (processQuery envPlain "deepseek-chat" [] "What is 2+2?").messages =
      [] ++ [userMessage "What is 2+2?"]
         ++ [({ role := "assistant", content := some "4" } : Message)] ∧
    (processQuery envPlain "deepseek-chat" [] "What is 2+2?").outcome =
      Except.ok (some "4") :=
  noToolCalls_transcript envPlain "deepseek-chat" [] "What is 2+2?" [sampleTool]
    { finish_reason := "stop", message := { role := "assistant", content := some "4" } } []
    (by decide) (by decide) (by decide)

theorem completionRequests_nil_of_toolCalled :
    ∀ (l : List Event), (∀ e ∈ l, isToolCalled e = true) → completionRequests l = [] := by
  intro l
  induction l with
  | nil => intro _; rfl
  | cons e rest ih =>
    intro h
    cases e with
    | appended m =>
      have := h (Event.appended m) (by simp)
      simp [isToolCalled] at this
    | completionRequested r =>
      have := h (Event.completionRequested r) (by simp)
      simp [isToolCalled] at this
    | toolCalled n a =>
      have hrest : ∀ x ∈ rest, isToolCalled x = true := fun x hx => h x (by simp [hx])
      simpa [completionRequests] using ih hrest

theorem completionRequests_nil : completionRequests [] = [] := rfl

theorem completionRequests_cons_appended (m : Message) (l : List Event) :
    completionRequests (Event.appended m :: l) = completionRequests l := rfl

theorem completionRequests_cons_toolCalled (n a : String) (l : List Event) :
    completionRequests (Event.toolCalled n a :: l) = completionRequests l := rfl

theorem completionRequests_cons_request (r : CompletionRequest) (l : List Event) :
    completionRequests (Event.completionRequested r :: l) = r :: completionRequests l := rfl

theorem completionRequests_append (l1 l2 : List Event) :
    completionRequests (l1 ++ l2) = completionRequests l1 ++ completionRequests l2 := by
  simp [completionRequests]

theorem completionRequests_map_appended (ms : List Message) :
    completionRequests (ms.map Event.appended) = [] := by
  induction ms with
  | nil => rfl
  | cons m rest ih =>
    simp only [List.map_cons, completionRequests_cons_appended]
    exact ih

theorem firstRequest_tools_none_iff (model : String) (messages : List Message)
    (response_tools : List Tool) :
    (firstRequest model messages response_tools).tools = none ↔ response_tools = [] := by
  cases response_tools with
  | nil => simp [firstRequest, availableTools]
  | cons t ts => simp [firstRequest, availableTools]

theorem firstRequest_tools_ne_nil (model : String) (messages : List Message)
    (response_tools : List Tool) :
    (firstRequest model messages response_tools).tools ≠ some [] := by
  cases response_tools with
  | nil => simp [firstRequest, availableTools]
  | cons t ts => simp [firstRequest, availableTools]

theorem processQuery_completionRequests (env : Env) (model : String)
    (messages0 : List Message) (query : String) :
    completionRequests (processQuery env model messages0 query).trace = [] ∨
    (∃ response_tools, env.list_tools = Except.ok response_tools ∧
      (completionRequests (processQuery env model messages0 query).trace =
         [firstRequest model (messages0 ++ [userMessage query]) response_tools] ∨
       completionRequests (processQuery env model messages0 query).trace =
         [firstRequest model (messages0 ++ [userMessage query]) response_tools,
          secondRequest model (processQuery env model messages0 query).messages])) := by
  unfold processQuery
  dsimp only
  split
  · left
    rfl
  · rename_i response_tools heq
    split
    · right
      exact ⟨response_tools, heq, Or.inl rfl⟩
    · rename_i content crest hchoices
      split
      · split
        · right
          exact ⟨response_tools, heq, Or.inl rfl⟩
        · rename_i tool_calls htc
          split
          · rename_i e hrt
            right
            refine ⟨response_tools, heq, Or.inl ?_⟩
            have hev := completionRequests_nil_of_toolCalled _ (runTools_snd_toolCalled env tool_calls)
            simp only [completionRequests_cons_appended, completionRequests_cons_request,
                       completionRequests_append, hev, completionRequests_map_appended,
                       completionRequests_nil, List.nil_append, List.append_nil]
          · rename_i tool_messages hrt
            split
            · right
              refine ⟨response_tools, heq, Or.inr ?_⟩
              have hev := completionRequests_nil_of_toolCalled _ (runTools_snd_toolCalled env tool_calls)
              simp only [completionRequests_cons_appended, completionRequests_cons_request,
                         completionRequests_append, hev, completionRequests_map_appended,
                         completionRequests_nil, List.nil_append, List.append_nil]
              rfl
            · rename_i c2 c2rest hsr
              right
              refine ⟨response_tools, heq, Or.inr ?_⟩
              have hev := completionRequests_nil_of_toolCalled _ (runTools_snd_toolCalled env tool_calls)
              simp only [completionRequests_cons_appended, completionRequests_cons_request,
                         completionRequests_append, hev, completionRequests_map_appended,
                         completionRequests_nil, List.nil_append, List.append_nil]
              rfl
      · right
        exact ⟨response_tools, heq, Or.inl rfl⟩

/-- C6: the first completion request of a turn omits the `tools` field
(sends `undefined`, modelled `none`) exactly when the available-tools
list is empty; no completion request of any turn ever carries an
explicit empty tool list; and whenever a turn performs two completion
requests, the second — the finalizing one after the tool round — carries
no tools. -/
theorem tools_field_shape (env : Env) (model : String) (messages0 : List Message)
    (query : String) :
    (∀ response_tools, env.list_tools = Except.ok response_tools →
       ((firstRequest model (messages0 ++ [userMessage query]) response_tools).tools = none
         ↔ response_tools = [])) ∧
    (∀ req ∈ completionRequests (processQuery env model messages0 query).trace,
       req.tools ≠ some []) ∧
    (∀ r1 r2, completionRequests (processQuery env model messages0 query).trace = [r1, r2] →
       r2.tools = none) := by
  refine ⟨fun ts _ => firstRequest_tools_none_iff model _ ts, ?_, ?_⟩
  · intro req hreq
    rcases processQuery_completionRequests env model messages0 query with hnil | ⟨ts, hlt, hone | htwo⟩
    · rw [hnil] at hreq
      simp at hreq
    · rw [hone] at hreq
      simp at hreq
      rw [hreq]
      exact firstRequest_tools_ne_nil model _ ts
    · rw [htwo] at hreq
      simp at hreq
      rcases hreq with h | h
      · rw [h]
        exact firstRequest_tools_ne_nil model _ ts
      · rw [h]
        simp [secondRequest]
  · intro r1 r2 h
    rcases processQuery_completionRequests env model messages0 query with hnil | ⟨ts, hlt, hone | htwo⟩
    · rw [hnil] at h
      simp at h
    · rw [hone] at h
      simp at h
    · have hts := htwo.symm.trans h
      simp at hts
      rw [← hts.2]
      simp [secondRequest]

/-- C6 (witness): the first conjunct applied to the no-tools world, plus
the second conjunct applied to the plain world's actual first request. -/
theorem tools_field_shape_witness :
    ((firstRequest "deepseek-chat" ([] ++ [userMessage "q"]) []).tools = none ↔ ([] : List Tool) = []) ∧
    (firstRequest "deepseek-chat" ([] ++ [userMessage "q"]) [sampleTool]).tools ≠ some [] :=
  ⟨(tools_field_shape envNoTools "deepseek-chat" [] "q").1 [] (by decide),
   (tools_field_shape envPlain "deepseek-chat" [] "q").2.1
     (firstRequest "deepseek-chat" ([] ++ [userMessage "q"]) [sampleTool]) (by decide)⟩

/-- C7: one input line whose trimmed form case-insensitively equals
`quit` makes the chat loop exit immediately — the orchestrator is not
invoked for it, no event is produced, the remaining input is not
consumed, and the transcript is left untouched — and on this normal exit
path `main` runs the cleanup pair (transcript flush, session close)
exactly once. -/
theorem quit_exits_loop (env : Env) (model : String) (messages : List Message)
    (line : String) (rest : List String)
    (hq : jsToLowerCase (jsTrim line) = "quit") :
    chatLoop env model (line :: rest) messages = (messages, []) ∧
    (mainRun (Except.ok ()) (Except.ok ())).count MainEvent.sessionClosed = 1 ∧
    (mainRun (Except.ok ()) (Except.ok ())).count MainEvent.transcriptWritten = 1 := by
  refine ⟨?_, rfl, rfl⟩
  simp [chatLoop, hq]

/-- C7 (witness): the theorem applied to the line `"  QUIT  "`. -/
theorem quit_exits_loop_witness :
    chatLoop envPlain "deepseek-chat" ["  QUIT  ", "What is 2+2?"] [] = ([], []) ∧
    (mainRun (Except.ok ()) (Except.ok ())).count MainEvent.sessionClosed = 1 ∧
    (mainRun (Except.ok ()) (Except.ok ())).count MainEvent.transcriptWritten = 1 :=
  quit_exits_loop envPlain "deepseek-chat" [] "  QUIT  " ["What is 2+2?"] (by decide)

/-- C8: settings construction fails — `getSettings` throws, so the module
never loads and the interactive loop never starts — whenever the API key
is missing (or empty), the config file is missing or unparseable, the
config has no `mcpServers` entry, or the first server entry lacks the
`command` or `args` field; and whenever it succeeds, the returned server
configuration is exactly the first entry of the file (never a
substituted default). -/
theorem getSettings_rejects_invalid (apiKeyEnv : Option String) (configFile : ConfigFile)
    (h : apiKeyEnv = none ∨ apiKeyEnv = some "" ∨ configFile = ConfigFile.enoent ∨
         configFile = ConfigFile.invalidJson ∨ configFile = ConfigFile.parsed none ∨
         configFile = ConfigFile.parsed (some []) ∨
         (∃ name server rest, configFile = ConfigFile.parsed (some ((name, server) :: rest)) ∧
            (server.command = none ∨ server.args = JsonArgs.absent))) :
    isError (getSettings apiKeyEnv configFile) = true ∧
    (∀ (key : Option String) (cfg : ConfigFile) (s : Settings),
        getSettings key cfg = Except.ok s →
        ∃ name server rest,
          cfg = ConfigFile.parsed (some ((name, server) :: rest)) ∧
          ∃ command arg moreArgs,
            server.command = some command ∧
            server.args = JsonArgs.array (arg :: moreArgs) ∧
            s.serverConfig = some { name := name, command := command,
                                    args := arg :: moreArgs }) := by
  constructor
  · rcases h with h | h | h | h | h | h | ⟨name, server, rest, hcfg, hbad⟩
    · subst h
      simp [getSettings, isError]
    · subst h
      simp [getSettings, isError]
    all_goals cases apiKeyEnv with
      | none => simp [getSettings, isError]
      | some k =>
        by_cases hk : k = ""
        · simp [getSettings, isError, hk]
        · first
          | (subst h; simp [getSettings, isError, hk])
          | (subst hcfg
             rcases hbad with hbad | hbad
             · simp [getSettings, isError, hk, hbad]
             · cases hcmd : server.command with
               | none => simp [getSettings, isError, hk, hbad, hcmd]
               | some command => simp [getSettings, isError, hk, hbad, hcmd])
  · intro key cfg s hs
    cases key with
    | none => simp [getSettings] at hs
    | some k =>
      by_cases hk : k = ""
      · simp [getSettings, hk] at hs
      · cases cfg with
        | enoent => simp [getSettings, hk] at hs
        | invalidJson => simp [getSettings, hk] at hs
        | parsed mcpServers =>
          cases mcpServers with
          | none => simp [getSettings, hk] at hs
          | some entries =>
            cases entries with
            | nil => simp [getSettings, hk] at hs
            | cons entry entryRest =>
              obtain ⟨name, server⟩ := entry
              refine ⟨name, server, entryRest, rfl, ?_⟩
              cases hcmd : server.command with
              | none => simp [getSettings, hk, hcmd] at hs
              | some command =>
                cases harr : server.args with
                | absent => simp [getSettings, hk, hcmd, harr] at hs
                | notArray => simp [getSettings, hk, hcmd, harr] at hs
                | array xs =>
                  cases xs with
                  | nil => simp [getSettings, hk, hcmd, harr] at hs
                  | cons arg moreArgs =>
                    simp [getSettings, hk, hcmd, harr] at hs
                    exact ⟨command, arg, moreArgs, rfl, rfl, by rw [← hs]⟩

/-- C8 (witness): the theorem applied to a missing API key. -/
theorem getSettings_rejects_invalid_witness :
    isError (getSettings none (ConfigFile.parsed none)) = true :=
  (getSettings_rejects_invalid none (ConfigFile.parsed none) (Or.inl rfl)).1

/-- C9: the transcript is append-only: every operation — one
`processQuery` turn, a whole chat loop over any input sequence, and
`cleanup` — leaves the prior messages in place, unmodified and in
order, only ever adding at the end; `cleanup` serializes exactly the
current transcript and does not touch it. -/
theorem transcript_append_only (env : Env) (model : String) (messages0 : List Message)
    (query : String) (inputs : List String) (sessionPresent : Bool) :
    (∃ tail, (processQuery env model messages0 query).messages = messages0 ++ tail) ∧
    (∃ tail, (chatLoop env model inputs messages0).1 = messages0 ++ tail) ∧
    (cleanup sessionPresent messages0).messages = messages0 ∧
    (cleanup sessionPresent messages0).transcriptWritten = messages0 :=
  ⟨processQuery_messages_extends env model messages0 query,
   chatLoop_messages_extends env model inputs messages0, rfl, rfl⟩

/-- C10: when a tool call's result has at least one content item, the
recorded tool message carries exactly the first item's text — whatever
further items exist, they do not influence the message — and when the
content sequence is empty, the unguarded `result.content[0].text` access
makes the tool loop fail with a `TypeError` instead of appending any
tool message. -/
theorem toolResult_first_item_only (env : Env) (tool_call : ToolCall)
    (rest : List ToolCall) (tool_args : String)
    (hp : env.parseJson tool_call.function.arguments = Except.ok tool_args) :
    (∀ item more,
       env.call_tool tool_call.function.name tool_args = Except.ok { content := item :: more } →
       runTools env (tool_call :: rest) =
         ((runTools env rest).1.map (fun tool_messages =>
            ({ role := "tool", content := item.text,
               tool_call_id := some tool_call.id } : Message) :: tool_messages),
          Event.toolCalled tool_call.function.name tool_args :: (runTools env rest).2)) ∧
    (env.call_tool tool_call.function.name tool_args = Except.ok { content := [] } →
       runTools env (tool_call :: rest) =
         (Except.error JsError.typeError,
          [Event.toolCalled tool_call.function.name tool_args])) := by
  constructor
  · intro item more hc
    simp [runTools, hp, hc]
  · intro hc
    simp [runTools, hp, hc]

/-- C10 (witness): the theorem applied to a two-item result (only
`"first item"` is recorded) and to an empty-content result (the loop
fails with a `TypeError` and produces no message). -/
theorem toolResult_first_item_only_witness :
    runTools envTwoItems [callC1] =
      (Except.ok [({ role := "tool", content := some "first item",
                     tool_call_id := some "c1" } : Message)],
       [Event.toolCalled "list_dir" "path-tmp"]) ∧
    runTools envEmptyContent [callC1] =
      (Except.error JsError.typeError, [Event.toolCalled "list_dir" "path-tmp"]) := by
  constructor
  · have h := (toolResult_first_item_only envTwoItems callC1 [] "path-tmp" (by decide)).1
      { text := some "first item" } [{ text := some "second item" }] (by decide)
    exact h.trans (by decide)
  · have h := (toolResult_first_item_only envEmptyContent callC1 [] "path-tmp" (by decide)).2
      (by decide)
    exact h.trans (by decide)

end McpSpec
